import Mathlib

/-!
Shallow embedding of the LLM-Scheduler task-scheduling core.

The definitions below are translated from the Go sources:
  * `backend/queue/manager.go`   — priority queue manager over Redis
  * `backend/services/task_service.go`  — task lifecycle service
  * `backend/services/model_service.go` — model registry service
  * `backend/worker/worker.go`   — worker execution loop

Redis lists are modelled as Lean lists with index 0 being the Redis list
head (the `LPUSH` end); `BRPOP` pops the last element (the tail).  Redis
sorted sets are modelled as association lists of `(member, score)` pairs,
with `ZADD` replacing the score of an existing member.  Store errors,
JSON (un)marshalling failures and blocking timeouts are not modelled:
every store operation succeeds, which is the code path all of the claims
speak about.
-/

/-- Task status enumeration (`models.TaskStatus` in the source). -/
inductive TaskStatus
  | pending
  | running
  | completed
  | failed
  | cancelled
deriving DecidableEq, Repr

/-- Task row (`models.Task` in the source; named `TaskRow` here because
`Task` is taken by the Lean core library).  `uint64` ids become `Nat`,
the Go `int` priority becomes `Int`, and times are unix seconds. -/
structure TaskRow where
  id : Nat
  modelId : Nat
  taskType : String
  input : String
  output : Option String
  status : TaskStatus
  priority : Int
  retryCount : Nat
  maxRetries : Nat
  errorMessage : Option String
  startedAt : Option Nat
  completedAt : Option Nat
  createdAt : Nat
deriving DecidableEq, Repr

/-- Model row (`models.Model`).  The opaque JSON config map is kept as a
list of string pairs; `MaxWorkers`/`CurrentWorkers` are Go `int`s. -/
structure Model where
  id : Nat
  name : String
  config : List (String × String)
  maxWorkers : Int
  currentWorkers : Int
  totalRequests : Nat
  successRequests : Nat
deriving DecidableEq, Repr

/-- Queue entry (`queue.QueueItem`): what actually travels through Redis. -/
structure QueueItem where
  taskId : Nat
  modelId : Nat
  priority : Int
  createdAt : Nat
deriving DecidableEq, Repr

/-- The three priority lanes (`queue:high`, `queue:medium`, `queue:low`). -/
inductive Lane
  | high
  | medium
  | low
deriving DecidableEq, Repr

/-- The five Redis keys of the queue manager: three lanes, the processing
sorted set and the delayed sorted set. -/
structure QueueState where
  high : List QueueItem
  medium : List QueueItem
  low : List QueueItem
  processing : List (QueueItem × Nat)
  delayed : List (QueueItem × Nat)
deriving DecidableEq, Repr

def QueueState.getLane (s : QueueState) : Lane → List QueueItem
  | .high => s.high
  | .medium => s.medium
  | .low => s.low

def QueueState.setLane (s : QueueState) : Lane → List QueueItem → QueueState
  | .high, l => { s with high := l }
  | .medium, l => { s with medium := l }
  | .low, l => { s with low := l }

/-- The empty queue state (all five keys empty). -/
def QueueState.empty : QueueState := ⟨[], [], [], [], []⟩

namespace Queue

/-- `Manager.getQueueKey`: map a task priority to its lane
(3 = high, 2 = medium, 1 = low, anything else defaults to medium). -/
def getQueueKey (priority : Int) : Lane :=
  if priority = 3 then .high
  else if priority = 2 then .medium
  else if priority = 1 then .low
  else .medium

/-- Build the `queue.QueueItem` that `Manager.EnqueueTask` marshals from a
task row. -/
def TaskRow.toItem (t : TaskRow) : QueueItem :=
  { taskId := t.id, modelId := t.modelId, priority := t.priority,
    createdAt := t.createdAt }

/-- `Manager.EnqueueTask`: `LPUSH` the serialized item onto the lane that
matches the task's priority. -/
def EnqueueTask (t : TaskRow) (s : QueueState) : QueueState :=
  let L := getQueueKey t.priority
  s.setLane L (TaskRow.toItem t :: s.getLane L)

/-- `ZADD`: insert a member with a score, replacing the score if the
member is already present. -/
def zadd (item : QueueItem) (score : Nat) :
    List (QueueItem × Nat) → List (QueueItem × Nat)
  | [] => [(item, score)]
  | e :: rest =>
    if e.1 = item then (item, score) :: rest else e :: zadd item score rest

/-- `Manager.moveToProcessing`: `ZADD` the dequeued item into
`queue:processing`.  The source scores it with `time.Now().Unix()` — the
claim time `now`, not `now + task_timeout`. -/
def moveToProcessing (now : Nat) (item : QueueItem) (s : QueueState) :
    QueueState :=
  { s with processing := zadd item now s.processing }

/-- Outcome of inspecting one lane inside `Manager.DequeueTask`. -/
inductive LaneStep
  | empty
  | skipped (lane : List QueueItem)
  | matched (item : QueueItem) (lane : List QueueItem)

/-- One lane iteration of `Manager.DequeueTask`: `BRPOP` the tail; if the
worker is bound to a model (`modelId ≠ 0`) and the popped entry belongs to
a different model, `LPUSH` it back and report `skipped`; otherwise report
the match together with the remaining lane. -/
def stepLane (modelId : Nat) (lane : List QueueItem) : LaneStep :=
  match lane.getLast? with
  | none => .empty
  | some item =>
    if modelId ≠ 0 ∧ item.modelId ≠ modelId then
      .skipped (item :: lane.dropLast)
    else
      .matched item lane.dropLast

/-- The `for _, queueKey := range queues` loop of `Manager.DequeueTask`:
one `BRPOP` per lane; on empty or mismatch the scan proceeds to the
**next** lane; on a match the item moves to `queue:processing` and is
returned. -/
def dequeueScan (modelId now : Nat) :
    List Lane → QueueState → Option QueueItem × QueueState
  | [], s => (none, s)
  | L :: rest, s =>
    match stepLane modelId (s.getLane L) with
    | .empty => dequeueScan modelId now rest s
    | .skipped lane => dequeueScan modelId now rest (s.setLane L lane)
    | .matched item lane =>
      (some item, moveToProcessing now item (s.setLane L lane))

/-- `Manager.DequeueTask`: scan `high → medium → low`. -/
def DequeueTask (modelId now : Nat) (s : QueueState) :
    Option QueueItem × QueueState :=
  dequeueScan modelId now [Lane.high, Lane.medium, Lane.low] s

/-- Linear scan of `queue:processing` performed by `Manager.CompleteTask`:
remove the first member whose `task_id` matches; leave the set unchanged
when nothing matches. -/
def ackProcessing (taskId : Nat) :
    List (QueueItem × Nat) → List (QueueItem × Nat)
  | [] => []
  | e :: rest =>
    if e.1.taskId = taskId then rest else e :: ackProcessing taskId rest

/-- `Manager.CompleteTask` (the queue-layer ack): drop the in-flight entry
of `taskId` from `queue:processing`; a missing entry is not an error. -/
def CompleteTask (taskId : Nat) (s : QueueState) : QueueState :=
  { s with processing := ackProcessing taskId s.processing }

/-- Enqueue a list of tasks left to right (`EnqueueTask` iterated). -/
def enqueueAll (ts : List TaskRow) (s : QueueState) : QueueState :=
  ts.foldl (fun s t => EnqueueTask t s) s

/-- Iterate `DequeueTask` up to `n` times, collecting the returned items
in order; stop early when the scan yields nothing. -/
def dequeueN : Nat → Nat → Nat → QueueState → List QueueItem
  | 0, _, _, _ => []
  | Nat.succ n, m, now, s =>
    match DequeueTask m now s with
    | (some item, s') => item :: dequeueN n m now s'
    | (none, _) => []

end Queue

namespace TaskService

/-- `TaskService.StartTask`: unconditional update of the row to
`running` with `started_at = now`.  The source filters only on the id —
there is no status precondition. -/
def StartTask (now : Nat) (t : TaskRow) : TaskRow :=
  { t with status := .running, startedAt := some now }

/-- `TaskService.CompleteTask`: update the row to `completed` with the
output and `completed_at = now`. -/
def CompleteTask (now : Nat) (output : String) (t : TaskRow) : TaskRow :=
  { t with status := .completed, output := some output,
           completedAt := some now }

/-- `TaskService.FailTask`: update the row to `failed` with the error
message and `completed_at = now`.  Neither `retry_count` nor
`started_at` is touched. -/
def FailTask (now : Nat) (errorMsg : String) (t : TaskRow) : TaskRow :=
  { t with status := .failed, errorMessage := some errorMsg,
           completedAt := some now }

/-- `TaskService.CancelTask`: allowed only from `pending` or `running`;
writes `cancelled` with `completed_at = now`; for a previously `running`
task also acks the in-flight queue entry. -/
def CancelTask (now : Nat) (t : TaskRow) (s : QueueState) :
    Except String (TaskRow × QueueState) :=
  if t.status ≠ .pending ∧ t.status ≠ .running then
    .error "task cannot be cancelled in current status"
  else
    let t' : TaskRow := { t with status := .cancelled, completedAt := some now }
    if t.status = .running then .ok (t', Queue.CompleteTask t.id s)
    else .ok (t', s)

/-- `TaskService.RetryTask`: allowed only from `failed` and only while
`retry_count < max_retries`; resets the row to `pending`, clears
`error_message`/`started_at`/`completed_at`, increments `retry_count`,
and re-enqueues the task. -/
def RetryTask (t : TaskRow) (s : QueueState) :
    Except String (TaskRow × QueueState) :=
  if t.status ≠ .failed then
    .error "task cannot be retried in current status"
  else if t.retryCount ≥ t.maxRetries then
    .error "task has exceeded maximum retry count"
  else
    let t' : TaskRow :=
      { t with status := .pending, errorMessage := none, startedAt := none,
               completedAt := none, retryCount := t.retryCount + 1 }
    .ok (t', Queue.EnqueueTask t' s)

/-- Request body of `TaskService.CreateTask` (`models.TaskCreateRequest`). -/
structure TaskCreateRequest where
  modelId : Nat
  taskType : String
  input : String
  priority : Int
deriving DecidableEq, Repr

/-- What `TaskService.CreateTask` leaves behind: the task row in the
database (if one was written), the queue state, and the returned value. -/
structure CreateResult where
  row : Option TaskRow
  queue : QueueState
  result : Except String TaskRow
deriving Repr

/-- `TaskService.CreateTask`.  `modelExists` stands for the initial
`db.First(&model, req.ModelID)` lookup and `enqueueOk` for the outcome of
`queueManager.EnqueueTask`.  The row is written with status `pending`
(the `BeforeCreate` hook defaults a zero priority to medium and the
schema defaults `max_retries` to 3); when the enqueue fails the row is
updated to `failed` with `error_message = "Failed to enqueue task"` and
an error is returned — the row is not rolled back. -/
def CreateTask (modelExists enqueueOk : Bool) (newId now : Nat)
    (req : TaskCreateRequest) (s : QueueState) : CreateResult :=
  if !modelExists then
    { row := none, queue := s, result := .error "model not found" }
  else
    let t : TaskRow :=
      { id := newId, modelId := req.modelId, taskType := req.taskType,
        input := req.input, output := none, status := .pending,
        priority := if req.priority = 0 then 2 else req.priority,
        retryCount := 0, maxRetries := 3, errorMessage := none,
        startedAt := none, completedAt := none, createdAt := now }
    if enqueueOk then
      { row := some t, queue := Queue.EnqueueTask t s, result := .ok t }
    else
      { row := some { t with status := .failed,
                             errorMessage := some "Failed to enqueue task" },
        queue := s, result := .error "failed to enqueue task" }

end TaskService

namespace ModelService

/-- `ModelService.IncrementWorkerCount`: an unconditional
`current_workers + 1` update filtered only on the model id — the source
places no `max_workers` bound on the increment. -/
def IncrementWorkerCount (m : Model) : Model :=
  { m with currentWorkers := m.currentWorkers + 1 }

/-- `ModelService.DecrementWorkerCount`: the update is filtered on
`current_workers > 0`, so a non-positive counter is left unchanged. -/
def DecrementWorkerCount (m : Model) : Model :=
  if m.currentWorkers > 0 then
    { m with currentWorkers := m.currentWorkers - 1 }
  else m

/-- `ModelService.IncrementRequestCount`: `total_requests + 1` always and
`success_requests + 1` only on success. -/
def IncrementRequestCount (success : Bool) (m : Model) : Model :=
  { m with totalRequests := m.totalRequests + 1,
           successRequests :=
             if success then m.successRequests + 1 else m.successRequests }

end ModelService

namespace Worker

/-- `Worker.executeTask`.  The task row was loaded by `processNextTask`;
`model` is the result of `modelService.GetModel` and `adapter` the result
of `executeTaskByType`.  The source marks the task `running` via
`StartTask` without ever inspecting its current status, then on adapter
failure calls `FailTask` directly — there is no `retry_count` check, no
status reset to `pending`, and no requeue with a delay; the only queue
write is the ack (`Queue.CompleteTask`). -/
def executeTask (now : Nat) (model : Option Model)
    (adapter : Except String String) (t : TaskRow) (s : QueueState) :
    TaskRow × Option Model × QueueState :=
  let t1 := TaskService.StartTask now t
  match model with
  | none =>
    (TaskService.FailTask now "Failed to get model information" t1, none, s)
  | some md =>
    match adapter with
    | .error msg =>
      (TaskService.FailTask now msg t1,
       some (ModelService.IncrementRequestCount false md),
       Queue.CompleteTask t.id s)
    | .ok out =>
      (TaskService.CompleteTask now out t1,
       some (ModelService.IncrementRequestCount true md),
       Queue.CompleteTask t.id s)

end Worker

/-! ### Helper lemmas about the queue embedding -/

lemma getLane_setLane (s : QueueState) (L L' : Lane) (v : List QueueItem) :
    (s.setLane L v).getLane L' = if L' = L then v else s.getLane L' := by
  cases L <;> cases L' <;>
    simp [QueueState.setLane, QueueState.getLane]

lemma getLane_moveToProcessing (now : Nat) (it : QueueItem) (s : QueueState)
    (L : Lane) :
    (Queue.moveToProcessing now it s).getLane L = s.getLane L := by
  cases L <;> rfl

lemma stepLane_concat_matched (m : Nat) (pre : List QueueItem) (x : QueueItem)
    (h : x.modelId = m ∨ m = 0) :
    Queue.stepLane m (pre ++ [x]) = .matched x pre := by
  unfold Queue.stepLane
  rw [List.getLast?_concat, List.dropLast_concat]
  have hneg : ¬(m ≠ 0 ∧ x.modelId ≠ m) := by
    rintro ⟨h1, h2⟩
    rcases h with h | h
    · exact h2 h
    · exact h1 h
  change (if m ≠ 0 ∧ x.modelId ≠ m then Queue.LaneStep.skipped (x :: pre)
      else Queue.LaneStep.matched x pre) = Queue.LaneStep.matched x pre
  rw [if_neg hneg]

lemma stepLane_concat_skipped (m : Nat) (pre : List QueueItem) (x : QueueItem)
    (hm : m ≠ 0) (hx : x.modelId ≠ m) :
    Queue.stepLane m (pre ++ [x]) = .skipped (x :: pre) := by
  unfold Queue.stepLane
  rw [List.getLast?_concat, List.dropLast_concat]
  change (if m ≠ 0 ∧ x.modelId ≠ m then Queue.LaneStep.skipped (x :: pre)
      else Queue.LaneStep.matched x pre) = Queue.LaneStep.skipped (x :: pre)
  rw [if_pos ⟨hm, hx⟩]

lemma dequeueScan_nil (m now : Nat) (s : QueueState) :
    Queue.dequeueScan m now [] s = (none, s) := rfl

lemma dequeueScan_cons_empty (m now : Nat) (L : Lane) (rest : List Lane)
    (s : QueueState) (h : s.getLane L = []) :
    Queue.dequeueScan m now (L :: rest) s = Queue.dequeueScan m now rest s := by
  simp only [Queue.dequeueScan]
  rw [h]
  rfl

lemma dequeueScan_cons_matched (m now : Nat) (L : Lane) (rest : List Lane)
    (s : QueueState) (pre : List QueueItem) (x : QueueItem)
    (hx : x.modelId = m ∨ m = 0) (hL : s.getLane L = pre ++ [x]) :
    Queue.dequeueScan m now (L :: rest) s =
      (some x, Queue.moveToProcessing now x (s.setLane L pre)) := by
  simp only [Queue.dequeueScan]
  rw [hL, stepLane_concat_matched m pre x hx]

lemma dequeueScan_cons_skipped (m now : Nat) (L : Lane) (rest : List Lane)
    (s : QueueState) (pre : List QueueItem) (x : QueueItem)
    (hm : m ≠ 0) (hx : x.modelId ≠ m) (hL : s.getLane L = pre ++ [x]) :
    Queue.dequeueScan m now (L :: rest) s =
      Queue.dequeueScan m now rest (s.setLane L (x :: pre)) := by
  simp only [Queue.dequeueScan]
  rw [hL, stepLane_concat_skipped m pre x hm hx]

lemma dequeue_single_lane (m now : Nat) (L : Lane) (s : QueueState)
    (pre : List QueueItem) (x : QueueItem)
    (hx : x.modelId = m ∨ m = 0)
    (hother : ∀ L', L' ≠ L → s.getLane L' = [])
    (hL : s.getLane L = pre ++ [x]) :
    Queue.DequeueTask m now s =
      (some x, Queue.moveToProcessing now x (s.setLane L pre)) := by
  cases L with
  | high =>
    exact dequeueScan_cons_matched m now .high _ s pre x hx hL
  | medium =>
    rw [Queue.DequeueTask,
      dequeueScan_cons_empty m now .high _ s (hother .high (by decide))]
    exact dequeueScan_cons_matched m now .medium _ s pre x hx hL
  | low =>
    rw [Queue.DequeueTask,
      dequeueScan_cons_empty m now .high _ s (hother .high (by decide)),
      dequeueScan_cons_empty m now .medium _ s (hother .medium (by decide))]
    exact dequeueScan_cons_matched m now .low _ s pre x hx hL

lemma dequeueN_single_lane (m now : Nat) (L : Lane) :
    ∀ (r : List QueueItem) (s : QueueState),
      (∀ it ∈ r, it.modelId = m) →
      (∀ L', L' ≠ L → s.getLane L' = []) →
      s.getLane L = r.reverse →
      Queue.dequeueN r.length m now s = r := by
  intro r
  induction r with
  | nil => intro s _ _ _; rfl
  | cons x rs ih =>
    intro s hall hother hL
    have hx : x.modelId = m ∨ m = 0 := Or.inl (hall x (by simp))
    have hrev : s.getLane L = rs.reverse ++ [x] := by
      rw [hL, List.reverse_cons]
    have hdq := dequeue_single_lane m now L s rs.reverse x hx hother hrev
    have hrest :
        Queue.dequeueN rs.length m now
          (Queue.moveToProcessing now x (s.setLane L rs.reverse)) = rs := by
      apply ih
      · intro it hit
        exact hall it (List.mem_cons_of_mem _ hit)
      · intro L' hL'
        rw [getLane_moveToProcessing, getLane_setLane, if_neg hL']
        exact hother L' hL'
      · rw [getLane_moveToProcessing, getLane_setLane, if_pos rfl]
    simp only [List.length_cons, Queue.dequeueN, hdq, hrest]

lemma enqueueAll_lanes (p : Int) :
    ∀ (ts : List TaskRow) (s : QueueState), (∀ t ∈ ts, t.priority = p) →
      ((Queue.enqueueAll ts s).getLane (Queue.getQueueKey p) =
          (ts.map Queue.TaskRow.toItem).reverse ++
            s.getLane (Queue.getQueueKey p)) ∧
      (∀ L', L' ≠ Queue.getQueueKey p →
          (Queue.enqueueAll ts s).getLane L' = s.getLane L') := by
  intro ts
  induction ts with
  | nil =>
    intro s _
    exact ⟨by simp [Queue.enqueueAll], fun _ _ => rfl⟩
  | cons t ts ih =>
    intro s hall
    have hp : t.priority = p := hall t (by simp)
    have hstep : Queue.enqueueAll (t :: ts) s =
        Queue.enqueueAll ts (Queue.EnqueueTask t s) := rfl
    have hEnq : Queue.EnqueueTask t s =
        s.setLane (Queue.getQueueKey p)
          (Queue.TaskRow.toItem t :: s.getLane (Queue.getQueueKey p)) := by
      simp only [Queue.EnqueueTask, hp]
    obtain ⟨ih1, ih2⟩ :=
      ih (Queue.EnqueueTask t s) (fun u hu => hall u (List.mem_cons_of_mem _ hu))
    constructor
    · rw [hstep, ih1, hEnq, getLane_setLane, if_pos rfl]
      simp [List.reverse_cons, List.append_assoc]
    · intro L' hL'
      rw [hstep, ih2 L' hL', hEnq, getLane_setLane, if_neg hL']

lemma zadd_mem (it : QueueItem) (sc : Nat) :
    ∀ l, (it, sc) ∈ Queue.zadd it sc l := by
  intro l
  induction l with
  | nil => simp [Queue.zadd]
  | cons e rest ih =>
    simp only [Queue.zadd]
    split
    · exact List.mem_cons_self _ _
    · exact List.mem_cons_of_mem _ ih

lemma dequeueScan_some (m now : Nat) :
    ∀ (ls : List Lane) (s : QueueState) (it : QueueItem) (s' : QueueState),
      Queue.dequeueScan m now ls s = (some it, s') →
      ∃ s₀, s' = Queue.moveToProcessing now it s₀ := by
  intro ls
  induction ls with
  | nil =>
    intro s it s' h
    simp [Queue.dequeueScan] at h
  | cons L rest ih =>
    intro s it s' h
    simp only [Queue.dequeueScan] at h
    cases hstep : Queue.stepLane m (s.getLane L) with
    | empty => rw [hstep] at h; exact ih s it s' h
    | skipped lane => rw [hstep] at h; exact ih _ it s' h
    | matched item lane =>
      rw [hstep] at h
      simp only [Prod.mk.injEq] at h
      obtain ⟨h1, h2⟩ := h
      cases h1
      exact ⟨_, h2.symm⟩

lemma ackProcessing_of_no_match (tid : Nat) :
    ∀ l, (∀ e ∈ l, e.1.taskId ≠ tid) → Queue.ackProcessing tid l = l := by
  intro l
  induction l with
  | nil => intro _; rfl
  | cons e rest ih =>
    intro h
    simp only [Queue.ackProcessing]
    rw [if_neg (h e (List.mem_cons_self _ _)), ih (fun a ha => h a (List.mem_cons_of_mem _ ha))]

lemma ackProcessing_idem (tid : Nat) :
    ∀ l, l.countP (fun e => e.1.taskId == tid) ≤ 1 →
      Queue.ackProcessing tid (Queue.ackProcessing tid l) =
        Queue.ackProcessing tid l := by
  intro l
  induction l with
  | nil => intro _; rfl
  | cons e rest ih =>
    intro hc
    by_cases he : e.1.taskId = tid
    · have h0 : rest.countP (fun e => e.1.taskId == tid) = 0 := by
        simp only [List.countP_cons, he, beq_self_eq_true, if_pos] at hc
        omega
      have hno : ∀ a ∈ rest, a.1.taskId ≠ tid := by
        intro a ha
        have := List.countP_eq_zero.mp h0 a ha
        simpa using this
      simp only [Queue.ackProcessing, if_pos he]
      exact ackProcessing_of_no_match tid rest hno
    · have hc' : rest.countP (fun e => e.1.taskId == tid) ≤ 1 := by
        simp only [List.countP_cons] at hc
        omega
      simp only [Queue.ackProcessing, if_neg he]
      rw [ih hc']

/-! ### Claim theorems -/

/-- Claim C1: the spec requires that creating then cancelling a task
yields `status=cancelled` even if a worker later picks the entry up,
because a worker that dequeues a cancelled task is supposed to ack and
continue.  The code has no such check: `Worker.executeTask` calls
`StartTask` unconditionally.  This theorem evaluates the embedding at the
failing input: a task is created and enqueued, cancelled while `pending`
(the lane entry is not removed), then a worker dequeues the entry and
executes it — the row ends in `status=completed`, not `cancelled`. -/
theorem worker_reexecutes_cancelled_task :
    let t0 : TaskRow := ⟨1, 1, "text-generation", "hi", none, .pending, 2, 0,
      3, none, none, none, 0⟩
    let md : Model := ⟨1, "gpt", [], 1, 1, 0, 0⟩
    let q0 := Queue.EnqueueTask t0 QueueState.empty
    ∃ t1 q1, TaskService.CancelTask 10 t0 q0 = .ok (t1, q1) ∧
      t1.status = .cancelled ∧
      (Queue.DequeueTask 1 20 q1).1 = some (Queue.TaskRow.toItem t0) ∧
      (Worker.executeTask 30 (some md) (Except.ok "output") t1
          (Queue.DequeueTask 1 20 q1).2).1.status = .completed := by
  exact ⟨_, _, rfl, by decide, by decide, by decide⟩

/-- Claim C2: the spec requires that an adapter failure with
`retry_count < max_retries` sends the task back to `pending` with an
incremented `retry_count`, a cleared `started_at` and a delayed requeue
before the ack.  The worker has no retry branch at all: on any adapter
failure it calls `FailTask` directly and merely acks.  Evaluating the
embedding at the failing input (a running task with `retry_count = 0 <
max_retries = 3` whose adapter fails) shows the row ends `failed` with
`retry_count` still 0, `started_at` still set, and nothing requeued into
any lane or the delayed set. -/
theorem worker_fails_without_retry :
    let t : TaskRow := ⟨1, 1, "text-generation", "hi", none, .running, 2, 0,
      3, none, some 5, none, 0⟩
    let md : Model := ⟨1, "gpt", [], 1, 1, 0, 0⟩
    let q : QueueState := ⟨[], [], [], [(Queue.TaskRow.toItem t, 5)], []⟩
    let r := Worker.executeTask 10 (some md) (Except.error "adapter failure") t q
    r.1.status = .failed ∧ r.1.retryCount = 0 ∧ r.1.startedAt = some 10 ∧
      r.1.errorMessage = some "adapter failure" ∧
      r.2.2.high = [] ∧ r.2.2.medium = [] ∧ r.2.2.low = [] ∧
      r.2.2.delayed = [] ∧ r.2.2.processing = [] := by
  decide

/-- Claim C3 (counterexample): with the medium lane holding an entry for
model A (older, at the `BRPOP` tail) and one for model B (younger) and a
B-worker calling dequeue, the claim says the single call returns the
model-B entry.  In the code a mismatch pushes the entry back and the scan
moves to the *next* lane, so the call returns `none`; the model-A entry is
pushed back to the `LPUSH` end, leaving the lane as `[A, B]`. -/
theorem dequeue_mismatch_counterexample :
    let a : QueueItem := ⟨1, 1, 2, 0⟩
    let b : QueueItem := ⟨2, 2, 2, 1⟩
    let s : QueueState := ⟨[], [b, a], [], [], []⟩
    (Queue.DequeueTask 2 100 s).1 = none ∧
      (Queue.DequeueTask 2 100 s).2 = ⟨[], [a, b], [], [], []⟩ := by
  decide

/-- Claim C4 (counterexample): the claim says every successful dequeue
inserts the entry into the processing set with score `now + task_timeout`.
The source's `moveToProcessing` scores with `time.Now().Unix()` — just
`now`.  At `now = 1000` with the default `task_timeout = 300` seconds the
stored score is 1000, and no entry with score `1000 + 300` exists. -/
theorem dequeue_score_counterexample :
    let it : QueueItem := ⟨1, 1, 2, 0⟩
    let s : QueueState := ⟨[], [it], [], [], []⟩
    (Queue.DequeueTask 1 1000 s).1 = some it ∧
      (Queue.DequeueTask 1 1000 s).2.processing = [(it, 1000)] ∧
      ¬ (it, 1000 + 300) ∈ (Queue.DequeueTask 1 1000 s).2.processing := by
  decide

/-- Claim C7 (counterexample): the claim says `incrementWorkerCount` never
raises `current_workers` above `max_workers`.  The source's update is
filtered only on the model id, so a model already at its cap
(`current_workers = max_workers = 1`) is incremented past it. -/
theorem increment_worker_count_counterexample :
    (ModelService.IncrementWorkerCount ⟨1, "gpt", [], 1, 1, 0, 0⟩).currentWorkers >
      (⟨1, "gpt", [], 1, 1, 0, 0⟩ : Model).maxWorkers := by
  decide

/-- Claim C7 (amended): `decrementWorkerCount` refuses to lower
`current_workers` below 0, so `0 ≤ current_workers` is preserved, and
`incrementWorkerCount` unconditionally adds one — the source places no
`max_workers` bound on the increment. -/
theorem worker_count_amended (m : Model) (h : 0 ≤ m.currentWorkers) :
    (ModelService.IncrementWorkerCount m).currentWorkers =
        m.currentWorkers + 1 ∧
      0 ≤ (ModelService.DecrementWorkerCount m).currentWorkers := by
  refine ⟨rfl, ?_⟩
  unfold ModelService.DecrementWorkerCount
  split_ifs with h1
  · simp only
    omega
  · exact h

/-- Witness for `worker_count_amended` at a concrete model. -/
theorem worker_count_amended_witness :
    (ModelService.IncrementWorkerCount ⟨2, "m", [], 4, 2, 0, 0⟩).currentWorkers =
        (2 : Int) + 1 ∧
      0 ≤ (ModelService.DecrementWorkerCount ⟨2, "m", [], 4, 2, 0, 0⟩).currentWorkers :=
  worker_count_amended ⟨2, "m", [], 4, 2, 0, 0⟩ (by decide)

/-- Claim C8: when the model exists but the enqueue into the queue store
fails, `CreateTask` leaves the freshly created row in the database with
`status=failed` and `error_message = "Failed to enqueue task"`, leaves the
queue untouched, and returns an error — the row is not rolled back. -/
theorem create_task_enqueue_failure (req : TaskService.TaskCreateRequest)
    (s : QueueState) (newId now : Nat) :
    (TaskService.CreateTask true false newId now req s).queue = s ∧
      (TaskService.CreateTask true false newId now req s).result =
        .error "failed to enqueue task" ∧
      ∃ t, (TaskService.CreateTask true false newId now req s).row = some t ∧
        t.status = .failed ∧ t.errorMessage = some "Failed to enqueue task" ∧
        t.id = newId ∧ t.modelId = req.modelId := by
  exact ⟨rfl, rfl, _, rfl, rfl, rfl, rfl, rfl⟩

/-- Claim C3 (amended): when dequeue pops an entry whose `model_id` does
not match the caller's model, it `LPUSH`es the entry back — the enqueue
end of the lane, so the entry loses its FIFO position — and the scan
moves on to the next lane without retrying the same lane.  With a lane
holding entries for model A (older) and model B (younger), a B-worker's
first dequeue call therefore returns none and leaves the lane `[A, B]`;
the *second* call returns the model-B entry and the model-A entry stays
behind. -/
theorem dequeue_mismatch_skips_lane (a b : QueueItem) (m now now2 : Nat)
    (hm : m ≠ 0) (ha : a.modelId ≠ m) (hb : b.modelId = m) :
    Queue.DequeueTask m now ⟨[], [b, a], [], [], []⟩ =
        (none, ⟨[], [a, b], [], [], []⟩) ∧
      Queue.DequeueTask m now2 ⟨[], [a, b], [], [], []⟩ =
        (some b, Queue.moveToProcessing now2 b ⟨[], [a], [], [], []⟩) := by
  constructor
  · calc Queue.DequeueTask m now ⟨[], [b, a], [], [], []⟩
        = Queue.dequeueScan m now [Lane.medium, Lane.low] ⟨[], [b, a], [], [], []⟩ :=
          dequeueScan_cons_empty m now .high [Lane.medium, Lane.low]
            ⟨[], [b, a], [], [], []⟩ rfl
      _ = Queue.dequeueScan m now [Lane.low] ⟨[], [a, b], [], [], []⟩ :=
          dequeueScan_cons_skipped m now .medium [Lane.low]
            ⟨[], [b, a], [], [], []⟩ [b] a hm ha rfl
      _ = Queue.dequeueScan m now [] ⟨[], [a, b], [], [], []⟩ :=
          dequeueScan_cons_empty m now .low [] ⟨[], [a, b], [], [], []⟩ rfl
      _ = (none, ⟨[], [a, b], [], [], []⟩) := rfl
  · calc Queue.DequeueTask m now2 ⟨[], [a, b], [], [], []⟩
        = Queue.dequeueScan m now2 [Lane.medium, Lane.low] ⟨[], [a, b], [], [], []⟩ :=
          dequeueScan_cons_empty m now2 .high [Lane.medium, Lane.low]
            ⟨[], [a, b], [], [], []⟩ rfl
      _ = (some b, Queue.moveToProcessing now2 b ⟨[], [a], [], [], []⟩) :=
          dequeueScan_cons_matched m now2 .medium [Lane.low]
            ⟨[], [a, b], [], [], []⟩ [a] b (Or.inl hb) rfl

/-- Witness for `dequeue_mismatch_skips_lane` at concrete entries. -/
theorem dequeue_mismatch_skips_lane_witness :
    Queue.DequeueTask 2 100 ⟨[], [⟨9, 2, 2, 1⟩, ⟨8, 5, 2, 0⟩], [], [], []⟩ =
        (none, ⟨[], [⟨8, 5, 2, 0⟩, ⟨9, 2, 2, 1⟩], [], [], []⟩) ∧
      Queue.DequeueTask 2 101 ⟨[], [⟨8, 5, 2, 0⟩, ⟨9, 2, 2, 1⟩], [], [], []⟩ =
        (some ⟨9, 2, 2, 1⟩,
          Queue.moveToProcessing 101 ⟨9, 2, 2, 1⟩ ⟨[], [⟨8, 5, 2, 0⟩], [], [], []⟩) :=
  dequeue_mismatch_skips_lane ⟨8, 5, 2, 0⟩ ⟨9, 2, 2, 1⟩ 2 100 101
    (by decide) (by decide) (by decide)

/-- Claim C4 (amended): every successful dequeue inserts the returned
entry into `queue:processing` with score equal to the current unix time
`now` — the claim time, not the lease expiry `now + task_timeout` (the
reaper compensates by reaping scores ≤ `now - task_timeout`). -/
theorem dequeue_score_is_claim_time (m now : Nat) (s s' : QueueState)
    (it : QueueItem) (h : Queue.DequeueTask m now s = (some it, s')) :
    (it, now) ∈ s'.processing := by
  obtain ⟨s₀, rfl⟩ := dequeueScan_some m now _ s it s' h
  exact zadd_mem it now s₀.processing

/-- Witness for `dequeue_score_is_claim_time` at a concrete state. -/
theorem dequeue_score_is_claim_time_witness :
    ((⟨1, 3, 2, 0⟩ : QueueItem), 77) ∈
      (Queue.DequeueTask 3 77 ⟨[], [⟨1, 3, 2, 0⟩], [], [], []⟩).2.processing :=
  dequeue_score_is_claim_time 3 77 ⟨[], [⟨1, 3, 2, 0⟩], [], [], []⟩ _ ⟨1, 3, 2, 0⟩ rfl

/-- Claim C5: for every list of tasks of the same priority and the same
model, enqueueing them in order into an empty queue and then dequeueing
as that model's worker returns their entries in insertion order — FIFO
within a lane. -/
theorem dequeue_fifo_order (ts : List TaskRow) (m now : Nat) (p : Int)
    (hts : ∀ t ∈ ts, t.modelId = m ∧ t.priority = p) :
    Queue.dequeueN ts.length m now (Queue.enqueueAll ts QueueState.empty) =
      ts.map Queue.TaskRow.toItem := by
  obtain ⟨h1, h2⟩ :=
    enqueueAll_lanes p ts QueueState.empty (fun t ht => (hts t ht).2)
  have hlen : (ts.map Queue.TaskRow.toItem).length = ts.length :=
    List.length_map _ _
  rw [← hlen]
  apply dequeueN_single_lane m now (Queue.getQueueKey p)
  · intro it hit
    obtain ⟨t, ht, rfl⟩ := List.mem_map.mp hit
    exact (hts t ht).1
  · intro L' hL'
    rw [h2 L' hL']
    cases L' <;> rfl
  · rw [h1]
    cases Queue.getQueueKey p <;> simp [QueueState.getLane, QueueState.empty]

/-- Witness for `dequeue_fifo_order`: two same-priority tasks of model 7
come back in insertion order. -/
theorem dequeue_fifo_order_witness :
    Queue.dequeueN 2 7 50
        (Queue.enqueueAll
          [⟨1, 7, "a", "x", none, .pending, 2, 0, 3, none, none, none, 0⟩,
           ⟨2, 7, "b", "y", none, .pending, 2, 0, 3, none, none, none, 1⟩]
          QueueState.empty) =
      [⟨1, 7, 2, 0⟩, ⟨2, 7, 2, 1⟩] :=
  dequeue_fifo_order
    [⟨1, 7, "a", "x", none, .pending, 2, 0, 3, none, none, none, 0⟩,
     ⟨2, 7, "b", "y", none, .pending, 2, 0, 3, none, none, none, 1⟩]
    7 50 2 (by decide)

/-- Claim C6: `RetryTask` succeeds exactly when the task is in status
`failed` with `retry_count < max_retries`; on success it resets the row
to `pending`, clears `started_at`, `completed_at` and `error_message`,
increments `retry_count` by one, and re-enqueues the task. -/
theorem retry_task_gating (t : TaskRow) (s : QueueState) :
    ((∃ r, TaskService.RetryTask t s = .ok r) ↔
        (t.status = .failed ∧ t.retryCount < t.maxRetries)) ∧
      (∀ t' s', TaskService.RetryTask t s = .ok (t', s') →
        t'.status = .pending ∧ t'.startedAt = none ∧ t'.completedAt = none ∧
          t'.errorMessage = none ∧ t'.retryCount = t.retryCount + 1 ∧
          s' = Queue.EnqueueTask t' s) := by
  unfold TaskService.RetryTask
  split_ifs with h1 h2
  · constructor
    · constructor
      · rintro ⟨r, hr⟩
        cases hr
      · rintro ⟨hf, _⟩
        exact absurd hf h1
    · intro t' s' h
      cases h
  · constructor
    · constructor
      · rintro ⟨r, hr⟩
        cases hr
      · rintro ⟨_, hlt⟩
        omega
    · intro t' s' h
      cases h
  · have hf : t.status = .failed := not_not.mp h1
    have hlt : t.retryCount < t.maxRetries := by omega
    constructor
    · exact ⟨fun _ => ⟨hf, hlt⟩, fun _ => ⟨_, rfl⟩⟩
    · intro t' s' h
      cases h
      exact ⟨rfl, rfl, rfl, rfl, rfl, rfl⟩

/-- Witness for `retry_task_gating`: a concrete failed task with one
retry left is reset and re-enqueued. -/
theorem retry_task_gating_witness :
    ∃ t' s', TaskService.RetryTask
        ⟨3, 1, "tg", "x", none, .failed, 2, 1, 3, some "boom", some 4, some 6, 0⟩
        QueueState.empty = .ok (t', s') ∧
      t'.status = .pending ∧ t'.retryCount = 2 ∧ t'.errorMessage = none := by
  have h := (retry_task_gating
    ⟨3, 1, "tg", "x", none, .failed, 2, 1, 3, some "boom", some 4, some 6, 0⟩
    QueueState.empty).2
  refine ⟨_, _, rfl, (h _ _ rfl).1, ?_, (h _ _ rfl).2.2.2.1⟩
  exact (h _ _ rfl).2.2.2.2.1

/-- Claim C9: `DequeueTask` called with `model_id = 0` bypasses the
model-match check entirely: it returns the tail entry of the highest
non-empty lane regardless of that entry's `model_id`. -/
theorem dequeue_model_zero_bypass (s : QueueState) (now : Nat) :
    (∀ pre x, s.high = pre ++ [x] →
        Queue.DequeueTask 0 now s =
          (some x, Queue.moveToProcessing now x (s.setLane .high pre))) ∧
      (s.high = [] → ∀ pre x, s.medium = pre ++ [x] →
        Queue.DequeueTask 0 now s =
          (some x, Queue.moveToProcessing now x (s.setLane .medium pre))) ∧
      (s.high = [] → s.medium = [] → ∀ pre x, s.low = pre ++ [x] →
        Queue.DequeueTask 0 now s =
          (some x, Queue.moveToProcessing now x (s.setLane .low pre))) := by
  refine ⟨?_, ?_, ?_⟩
  · intro pre x h
    exact dequeueScan_cons_matched 0 now .high _ s pre x (Or.inr rfl) h
  · intro hh pre x h
    rw [Queue.DequeueTask, dequeueScan_cons_empty 0 now .high _ s hh]
    exact dequeueScan_cons_matched 0 now .medium _ s pre x (Or.inr rfl) h
  · intro hh hm pre x h
    rw [Queue.DequeueTask, dequeueScan_cons_empty 0 now .high _ s hh,
      dequeueScan_cons_empty 0 now .medium _ s hm]
    exact dequeueScan_cons_matched 0 now .low _ s pre x (Or.inr rfl) h

/-- Witness for `dequeue_model_zero_bypass`: the entry of model 42 in the
high lane is returned to a caller with `model_id = 0`. -/
theorem dequeue_model_zero_bypass_witness :
    Queue.DequeueTask 0 5 ⟨[⟨1, 42, 3, 9⟩], [], [], [], []⟩ =
      (some ⟨1, 42, 3, 9⟩,
        Queue.moveToProcessing 5 ⟨1, 42, 3, 9⟩
          (QueueState.setLane ⟨[⟨1, 42, 3, 9⟩], [], [], [], []⟩ .high [])) :=
  (dequeue_model_zero_bypass ⟨[⟨1, 42, 3, 9⟩], [], [], [], []⟩ 5).1 [] ⟨1, 42, 3, 9⟩ rfl

/-- Claim C10: the queue-layer ack is idempotent and total: acking a
`task_id` with no entry in the processing set leaves every queue
structure unchanged (and in the source returns success — `CompleteTask`
is total, the scan falling through to `return nil`), and, as long as a
`task_id` occurs at most once in the processing set, acking twice equals
acking once. -/
theorem ack_idempotent_total (s : QueueState) (tid : Nat) :
    ((∀ e ∈ s.processing, e.1.taskId ≠ tid) → Queue.CompleteTask tid s = s) ∧
      (s.processing.countP (fun e => e.1.taskId == tid) ≤ 1 →
        Queue.CompleteTask tid (Queue.CompleteTask tid s) =
          Queue.CompleteTask tid s) := by
  constructor
  · intro h
    show { s with processing := Queue.ackProcessing tid s.processing } = s
    rw [ackProcessing_of_no_match tid s.processing h]
  · intro hc
    show { s with processing :=
        Queue.ackProcessing tid (Queue.ackProcessing tid s.processing) } =
      { s with processing := Queue.ackProcessing tid s.processing }
    rw [ackProcessing_idem tid s.processing hc]

/-- Witness for `ack_idempotent_total` at a concrete processing set. -/
theorem ack_idempotent_total_witness :
    Queue.CompleteTask 9 ⟨[], [], [], [(⟨1, 1, 2, 0⟩, 5)], []⟩ =
        ⟨[], [], [], [(⟨1, 1, 2, 0⟩, 5)], []⟩ ∧
      Queue.CompleteTask 1
          (Queue.CompleteTask 1 ⟨[], [], [], [(⟨1, 1, 2, 0⟩, 5)], []⟩) =
        Queue.CompleteTask 1 ⟨[], [], [], [(⟨1, 1, 2, 0⟩, 5)], []⟩ :=
  ⟨(ack_idempotent_total ⟨[], [], [], [(⟨1, 1, 2, 0⟩, 5)], []⟩ 9).1 (by decide),
   (ack_idempotent_total ⟨[], [], [], [(⟨1, 1, 2, 0⟩, 5)], []⟩ 1).2 (by decide)⟩
